import Mathlib

/-!
Verification of the `ctdf` journey model and its query layer
(deduplication by functional hash, reference resolution, realtime
overlay, cached services-by-stop query), shallowly embedded from the
Go sources.

Modelling conventions:
* Go `time.Time` is an abstract instant (`GoTime`, Unix nanoseconds as `Int`);
  its `String()` / `GoString()` renderings are injective textual encodings.
* `sha256` consumes a byte stream via successive `Write` calls; the digest is
  a pure function of the concatenated stream, so the hash is modelled as that
  concatenated stream itself (digest equality = stream equality).
* MongoDB `FindOne` without a sort returns the first matching document in the
  collection's natural order; collections are modelled as lists in natural
  order and `FindOne` as `List.find?`.
* A nil-pointer dereference or out-of-bounds index in Go is modelled by an
  `Option`-returning function yielding `none`.
* `Decode` into a pointer on a miss leaves the pointer unchanged.
-/

/-- Go `time.Time`, modelled as an abstract instant (Unix nanoseconds). -/
structure GoTime where
  unixNano : Int
deriving DecidableEq, Repr

/-- `time.Time.String()`: a textual rendering of the instant, injective on
instants (the real format prints full nanosecond precision and zone offset). -/
def GoTime.string (t : GoTime) : String :=
  "time " ++ toString t.unixNano

/-- `time.Time.GoString()`: the `time.Date(...)` rendering, likewise injective. -/
def GoTime.goString (t : GoTime) : String :=
  "time.Date " ++ toString t.unixNano

/-- One availability rule. The struct itself is declared outside the given
sources; its three fields (Type, Value, Description) are exactly those read by
`Journey.GenerateFunctionalHash`. `Type` is a Lean keyword, hence `RuleType`. -/
structure AvailabilityRule where
  RuleType : String
  Value : String
  Description : String
deriving DecidableEq, Repr

/-- Journey availability: four rule lists, as read by
`Journey.GenerateFunctionalHash` (Match, MatchSecondary, Exclude, Condition). -/
structure Availability where
  Match : List AvailabilityRule
  MatchSecondary : List AvailabilityRule
  Exclude : List AvailabilityRule
  Condition : List AvailabilityRule
deriving DecidableEq, Repr

/-- A stop platform; only its primary identifier is consulted by the code
under verification (`platforms.primaryidentifier` queries). -/
structure Platform where
  PrimaryIdentifier : String
deriving DecidableEq, Repr

/-- A Stop, restricted to the fields the verified code reads: its primary
identifier and its platforms. -/
structure Stop where
  PrimaryIdentifier : String
  Platforms : List Platform
deriving DecidableEq, Repr

/-- An Operator, restricted to the fields used by `Journey.GetOperator`:
primary identifier and the alternate-identifier set. -/
structure Operator where
  PrimaryIdentifier : String
  OtherIdentifiers : List String
deriving DecidableEq, Repr

/-- A Service, restricted to the fields relevant to `Journey.GetService` and
`ServicesByStopQuery`: primary identifier plus the alternate-identifier set
(the latter exists on the entity but is not consulted by `GetService`). -/
structure Service where
  PrimaryIdentifier : String
  OtherIdentifiers : List String
deriving DecidableEq, Repr

/-- A RealtimeJourney as consulted by `Journey.GetRealtimeJourney`: the
embedded journey's primary identifier (the `journey.primaryidentifier` key
path of the Mongo query), the modification time, and the activity predicate.
Modelled from the spec: the `IsActive` predicate's internals are outside the
given sources ("an own activity predicate (IsActive)"), so it is an abstract
boolean attribute of the record. -/
structure RealtimeJourney where
  JourneyPrimaryIdentifier : String
  ModificationDateTime : GoTime
  ActiveFlag : Bool
deriving DecidableEq, Repr

/-- `RealtimeJourney.IsActive()`. Modelled from the spec: an own activity
predicate of the record, here its abstract `ActiveFlag`. -/
def RealtimeJourney.IsActive (rj : RealtimeJourney) : Bool :=
  rj.ActiveFlag

/-- One `JourneyPathItem`. Fields `Track`, `OriginActivity`,
`DestinationActivity` and `Associations` (types declared outside the given
sources, never read by the verified code) are omitted. -/
structure JourneyPathItem where
  OriginStopRef : String
  DestinationStopRef : String
  OriginStop : Option Stop
  DestinationStop : Option Stop
  OriginPlatform : String
  DestinationPlatform : String
  Distance : Int
  OriginArrivalTime : GoTime
  DestinationArrivalTime : GoTime
  OriginDepartureTime : GoTime
  DestinationDisplay : String
deriving DecidableEq, Repr

/-- A Journey. `OtherIdentifiers` (Go `map[string]string`) is an association
list; relation pointers (`Service`, `Operator`, `RealtimeJourney`,
`Availability`) are `Option`s (`none` = nil). Fields `DataSource`, `Track`
and `DetailedRailInformation` (never read by the verified code) are omitted. -/
structure Journey where
  PrimaryIdentifier : String
  OtherIdentifiers : List (String × String)
  CreationDateTime : GoTime
  ModificationDateTime : GoTime
  ServiceRef : String
  Service : Option Service
  OperatorRef : String
  Operator : Option Operator
  Direction : String
  DepartureTime : GoTime
  DepartureTimezone : String
  DestinationDisplay : String
  Availability : Option Availability
  Path : List JourneyPathItem
  RealtimeJourney : Option RealtimeJourney
deriving DecidableEq, Repr

/-- The `operators` Mongo collection, in natural order. -/
abbrev OperatorsCollection := List Operator

/-- The `services` Mongo collection, in natural order. -/
abbrev ServicesCollection := List Service

/-- The `realtime_journeys` Mongo collection, in natural order. -/
abbrev RealtimeJourneysCollection := List RealtimeJourney

/-- The bytes an availability rule contributes to the hash stream:
`Write(Type); Write(Value); Write(Description)` (no separators). -/
def AvailabilityRule.hashChunk (r : AvailabilityRule) : String :=
  r.RuleType ++ r.Value ++ r.Description

/-- The bytes a path item contributes to the hash stream. -/
def JourneyPathItem.hashChunk (p : JourneyPathItem) : String :=
  p.OriginStopRef ++ p.OriginArrivalTime.goString ++ p.OriginDepartureTime.goString
    ++ p.DestinationStopRef ++ p.DestinationArrivalTime.goString

/-- `Journey.GenerateFunctionalHash(includeAvailabilityCondition)`.

The sha256 digest is modelled as the concatenated stream of bytes written to
the hash (see the header comment). The Go code, in order: ServiceRef,
DestinationDisplay, Direction, DepartureTime.String(); if the flag is set,
every rule of `Availability.Match ++ MatchSecondary ++ Exclude ++ Condition`
contributing Type, Value, Description; finally, per path item, OriginStopRef,
OriginArrivalTime.GoString(), OriginDepartureTime.GoString(),
DestinationStopRef, DestinationArrivalTime.GoString().

When the flag is set and `Availability` is nil, the Go code dereferences a nil
pointer (`j.Availability.Match`): modelled as `none`. -/
def Journey.GenerateFunctionalHash (j : Journey) (includeAvailabilityCondition : Bool) :
    Option String :=
  let base := j.ServiceRef ++ j.DestinationDisplay ++ j.Direction ++ j.DepartureTime.string
  let availPart : Option String :=
    if includeAvailabilityCondition then
      match j.Availability with
      | none => none
      | some a =>
        let rules := a.Match ++ a.MatchSecondary ++ a.Exclude ++ a.Condition
        some (String.join (rules.map AvailabilityRule.hashChunk))
    else
      some ""
  match availPart with
  | none => none
  | some ap =>
    some (base ++ ap ++ String.join (j.Path.map JourneyPathItem.hashChunk))

/-- The recursion of `FilterIdenticalJourneys`: walk the input in order with
the set (`matches` map) of hashes already seen; keep a journey iff its hash is
new. A `none` hash (nil `Availability` under the flag) is the Go panic:
the whole call fails. -/
def filterIdenticalJourneysGo (includeAvailabilityCondition : Bool) :
    List Journey → List String → Option (List Journey)
  | [], _ => some []
  | j :: rest, seen =>
    match j.GenerateFunctionalHash includeAvailabilityCondition with
    | none => none
    | some h =>
      if seen.contains h then
        filterIdenticalJourneysGo includeAvailabilityCondition rest seen
      else
        match filterIdenticalJourneysGo includeAvailabilityCondition rest (h :: seen) with
        | none => none
        | some f => some (j :: f)

/-- `FilterIdenticalJourneys(journeys, includeAvailabilityCondition)`:
deduplication by functional hash, first representative kept. -/
def FilterIdenticalJourneys (journeys : List Journey)
    (includeAvailabilityCondition : Bool) : Option (List Journey) :=
  filterIdenticalJourneysGo includeAvailabilityCondition journeys []

/-- `Journey.GetOperator()`. The operators collection is the list `operators`
in natural order; the Mongo query is
`primaryidentifier == OperatorRef OR otheridentifiers contains OperatorRef`.
A miss leaves the field unchanged (`Decode` on no document is a no-op). -/
def Journey.GetOperator (j : Journey) (operators : OperatorsCollection) : Journey :=
  if j.Operator.isSome then j
  else
    match operators.find? (fun o =>
        o.PrimaryIdentifier == j.OperatorRef || o.OtherIdentifiers.contains j.OperatorRef) with
    | some o => { j with Operator := some o }
    | none => j

/-- `Journey.GetService()`. Lookup is by `primaryidentifier == ServiceRef`
only; a miss leaves the field unchanged. -/
def Journey.GetService (j : Journey) (services : ServicesCollection) : Journey :=
  if j.Service.isSome then j
  else
    match services.find? (fun s => s.PrimaryIdentifier == j.ServiceRef) with
    | some s => { j with Service := some s }
    | none => j

/-- `Journey.GetReferences()`: resolve operator then service. -/
def Journey.GetReferences (j : Journey) (operators : OperatorsCollection)
    (services : ServicesCollection) : Journey :=
  (j.GetOperator operators).GetService services

/-- The stops-collection lookup shared by `GetOriginStop` / `GetDestinationStop`:
first stop whose primary identifier, or one of whose platforms' primary
identifiers, equals `ref`. -/
def stopsFindOne (stops : List Stop) (ref : String) : Option Stop :=
  stops.find? (fun s =>
    s.PrimaryIdentifier == ref
      || s.Platforms.any (fun p => p.PrimaryIdentifier == ref))

/-- `JourneyPathItem.GetOriginStop()`: a hit overwrites `OriginStop`, a miss
leaves it unchanged. -/
def JourneyPathItem.GetOriginStop (jpi : JourneyPathItem) (stops : List Stop) :
    JourneyPathItem :=
  match stopsFindOne stops jpi.OriginStopRef with
  | some s => { jpi with OriginStop := some s }
  | none => jpi

/-- `JourneyPathItem.GetDestinationStop()`. -/
def JourneyPathItem.GetDestinationStop (jpi : JourneyPathItem) (stops : List Stop) :
    JourneyPathItem :=
  match stopsFindOne stops jpi.DestinationStopRef with
  | some s => { jpi with DestinationStop := some s }
  | none => jpi

/-- `JourneyPathItem.GetReferences()`: resolve origin stop then destination stop. -/
def JourneyPathItem.GetReferences (jpi : JourneyPathItem) (stops : List Stop) :
    JourneyPathItem :=
  (jpi.GetOriginStop stops).GetDestinationStop stops

/-- Replace the element at index `i` of a list by `f` of it (out-of-range is a
no-op): the effect of the goroutine for path item `i`, which writes only its
own `JourneyPathItem`. -/
def listModify (f : α → α) : Nat → List α → List α
  | _, [] => []
  | 0, a :: as => f a :: as
  | n + 1, a :: as => a :: listModify f n as

/-- One goroutine of `Journey.GetDeepReferences`: task `i` runs
`path.GetReferences()` on its own path item, touching nothing else. -/
def deepReferenceTask (stops : List Stop) (j : Journey) (i : Nat) : Journey :=
  { j with Path := listModify (fun p => p.GetReferences stops) i j.Path }

/-- Run the per-path-item tasks in the given completion order (a list of path
indices). The scheduler may complete the goroutines in any order; `wg.Wait()`
returns only once all of them have run. -/
def runDeepReferenceTasks (stops : List Stop) (j : Journey) (order : List Nat) :
    Journey :=
  order.foldl (deepReferenceTask stops) j

/-- `Journey.GetDeepReferences()`: one task per path item, all joined before
returning. Stated with the spawn order; the order-independence theorem shows
any completion order gives the same journey. -/
def Journey.GetDeepReferences (j : Journey) (stops : List Stop) : Journey :=
  runDeepReferenceTasks stops j (List.range j.Path.length)

/-- Modelled from the spec: `GetActiveRealtimeJourneyCutOffDate()` (declared
outside the given sources) returns the oldest modification instant still
inside the process-wide freshness window, i.e. `now` minus the cutoff. -/
def GetActiveRealtimeJourneyCutOffDate (now cutoff : Int) : GoTime :=
  ⟨now - cutoff⟩

/-- `Journey.GetRealtimeJourney()`. `FindOne` (no sort) on the
realtime-journeys collection with filter
`journey.primaryidentifier == PrimaryIdentifier AND modificationdatetime > cutoffDate`;
the result is attached iff it exists and its `IsActive()` holds. -/
def Journey.GetRealtimeJourney (j : Journey) (realtimeJourneys : RealtimeJourneysCollection)
    (now cutoff : Int) : Journey :=
  let realtimeActiveCutoffDate := GetActiveRealtimeJourneyCutOffDate now cutoff
  let realtimeJourney := realtimeJourneys.find? (fun rj =>
    rj.JourneyPrimaryIdentifier == j.PrimaryIdentifier
      && realtimeActiveCutoffDate.unixNano < rj.ModificationDateTime.unixNano)
  match realtimeJourney with
  | some rj => if rj.IsActive then { j with RealtimeJourney := some rj } else j
  | none => j

/-- The mutable state of the `FlattenStops` loop: the `stops` slice, the two
time maps (association lists; a key is written at most once) and the
`alreadySeen` set. -/
structure FlattenState where
  stops : List String
  arrivalTimes : List (String × GoTime)
  departureTimes : List (String × GoTime)
  alreadySeen : List String
deriving DecidableEq, Repr

/-- One iteration of the `FlattenStops` loop body. -/
def flattenStep (st : FlattenState) (pathItem : JourneyPathItem) : FlattenState :=
  if st.alreadySeen.contains pathItem.OriginStopRef then st
  else
    { stops := st.stops ++ [pathItem.OriginStopRef]
      arrivalTimes := st.arrivalTimes ++ [(pathItem.OriginStopRef, pathItem.OriginArrivalTime)]
      departureTimes := st.departureTimes ++ [(pathItem.OriginStopRef, pathItem.OriginDepartureTime)]
      alreadySeen := st.alreadySeen ++ [pathItem.OriginStopRef] }

/-- `Journey.FlattenStops()`. After the loop the code indexes
`j.Path[len(j.Path)-1]`: on an empty path this is index `-1`, a panic,
modelled as `none`. The final block appends the last item's OriginStopRef if
unseen (without marking it seen — the loop is over). -/
def Journey.FlattenStops (j : Journey) :
    Option (List String × List (String × GoTime) × List (String × GoTime)) :=
  let st := j.Path.foldl flattenStep ⟨[], [], [], []⟩
  match j.Path.getLast? with
  | none => none
  | some lastPathItem =>
    if st.alreadySeen.contains lastPathItem.OriginStopRef then
      some (st.stops, st.arrivalTimes, st.departureTimes)
    else
      some (st.stops ++ [lastPathItem.OriginStopRef],
        st.arrivalTimes ++ [(lastPathItem.OriginStopRef, lastPathItem.OriginArrivalTime)],
        st.departureTimes ++ [(lastPathItem.OriginStopRef, lastPathItem.OriginDepartureTime)])

/-- A stored cache slot. Modelled from the spec: the cache holds serialized
blobs; a read either decodes to a value or fails (a corrupt/undecodable blob),
and a missing key also fails ("CacheDecodeError — treated identically to a
cache miss"). -/
inductive CacheSlot where
  | decoded (value : List Service) (ttl : Int)
  | corrupt
deriving DecidableEq, Repr

/-- The `cachedresults` store: keys to slots, most recent write first. -/
abbrev CachedResults := List (String × CacheSlot)

/-- Modelled from the spec: `cachedresults.Get` returns the decoded value on a
hit, and a non-nil error on a miss or a decode failure (the value result is
then the zero value, not used by the caller). -/
def cachedresultsGet (cache : CachedResults) (key : String) :
    Except Unit (List Service) :=
  match cache.find? (fun e => e.1 == key) with
  | some (_, CacheSlot.decoded v _) => Except.ok v
  | some (_, CacheSlot.corrupt) => Except.error ()
  | none => Except.error ()

/-- Modelled from the spec: `cachedresults.Set(key, value, ttl)` stores the
value under the key with the given TTL (nanoseconds). -/
def cachedresultsSet (cache : CachedResults) (key : String) (value : List Service)
    (ttl : Int) : CachedResults :=
  (key, CacheSlot.decoded value ttl) :: cache

/-- Go `time.Hour` in nanoseconds. -/
def timeHour : Int := 3600000000000

/-- Modelled from the spec: `Stop.GetAllStopIDs()` — "the stops primary id and
all platforms primary ids" (so reads the source's own comment too). -/
def Stop.GetAllStopIDs (s : Stop) : List String :=
  s.PrimaryIdentifier :: s.Platforms.map Platform.PrimaryIdentifier

/-- The `query.ServicesByStop` argument. -/
structure ServicesByStop where
  Stop : Stop
deriving DecidableEq, Repr

/-- The databaselookup `Source`: holds the cachedresults connection. The store
collections are passed explicitly (they are package-level singletons in Go). -/
structure Source where
  CachedResults : CachedResults
deriving DecidableEq, Repr

/-- Modelled from the spec: `transforms.Transform(service, 1)` runs a shallow
depth-1 reference resolution / transformation on the service; it does not
change the fields modelled here. -/
def transformsTransform (s : Service) (depth : Nat) : Service :=
  match depth with
  | _ => s

/-- The Mongo filter of `ServicesByStopQuery`: a journey document matches when
some path item's OriginStopRef, or some path item's DestinationStopRef, is in
`allStopIDs` (Mongo array-field semantics of `path.originstopref $in ...`). -/
def servicesByStopFilter (allStopIDs : List String) (j : Journey) : Bool :=
  j.Path.any (fun p => allStopIDs.contains p.OriginStopRef)
    || j.Path.any (fun p => allStopIDs.contains p.DestinationStopRef)

/-- The cursor loop of `ServicesByStopQuery`: for each matching journey in
natural order, project its ServiceRef; on first sight of a ServiceRef, fetch
the service by primary identifier (restricted projection — the dropped fields
are not modelled) and, if found, transform and append it. -/
def servicesByStopLoop (servicesCollection : ServicesCollection) :
    List Journey → List String → List Service
  | [], _ => []
  | j :: rest, serviceFound =>
    if serviceFound.contains j.ServiceRef then
      servicesByStopLoop servicesCollection rest serviceFound
    else
      match servicesCollection.find? (fun s => s.PrimaryIdentifier == j.ServiceRef) with
      | some service =>
        transformsTransform service 1 ::
          servicesByStopLoop servicesCollection rest (j.ServiceRef :: serviceFound)
      | none =>
        servicesByStopLoop servicesCollection rest (j.ServiceRef :: serviceFound)

/-- The authoritative store computation of `ServicesByStopQuery` (everything
after the cache miss, before the cache write). -/
def servicesByStopCompute (journeysCollection : List Journey)
    (servicesCollection : ServicesCollection) (q : ServicesByStop) : List Service :=
  let allStopIDs := q.Stop.GetAllStopIDs
  servicesByStopLoop servicesCollection
    (journeysCollection.filter (servicesByStopFilter allStopIDs)) []

/-- The observable outcome of one `ServicesByStopQuery` call: the returned
slice and error, whether the authoritative store computation ran, and the
cache state afterwards. -/
structure ServicesByStopOutcome where
  services : List Service
  err : Option Unit
  storeComputed : Bool
  cacheAfter : CachedResults
deriving DecidableEq, Repr

/-- `Source.ServicesByStopQuery(q)`: try the cache under key
`cachedresults/servicesbystopquery/<stop id>`; on a decoded hit return it at
once; otherwise run the store computation, cache the result for 24 hours and
return it. The returned error is always nil. -/
def Source.ServicesByStopQuery (s : Source) (journeysCollection : List Journey)
    (servicesCollection : ServicesCollection) (q : ServicesByStop) :
    ServicesByStopOutcome :=
  let cacheItemPath := "cachedresults/servicesbystopquery/" ++ q.Stop.PrimaryIdentifier
  match cachedresultsGet s.CachedResults cacheItemPath with
  | Except.ok services =>
    { services := services, err := none, storeComputed := false,
      cacheAfter := s.CachedResults }
  | Except.error _ =>
    let services := servicesByStopCompute journeysCollection servicesCollection q
    { services := services, err := none, storeComputed := true,
      cacheAfter := cachedresultsSet s.CachedResults cacheItemPath services (24 * timeHour) }

/-- A path item for the worked examples (origin `o`, destination `d`,
times offset from `t`). -/
def examplePathItem (o d : String) (t : Int) : JourneyPathItem :=
  { OriginStopRef := o, DestinationStopRef := d, OriginStop := none,
    DestinationStop := none, OriginPlatform := "", DestinationPlatform := "",
    Distance := 0, OriginArrivalTime := ⟨t⟩, DestinationArrivalTime := ⟨t + 60⟩,
    OriginDepartureTime := ⟨t + 10⟩, DestinationDisplay := d }

/-- J1 of the spec's worked example: SVC1, Town Centre, outbound, 08:00,
path A→B→C. -/
def exampleJourneyJ1 : Journey :=
  { PrimaryIdentifier := "J1", OtherIdentifiers := [],
    CreationDateTime := ⟨1000⟩, ModificationDateTime := ⟨1000⟩,
    ServiceRef := "SVC1", Service := none, OperatorRef := "OP1", Operator := none,
    Direction := "outbound", DepartureTime := ⟨28800⟩,
    DepartureTimezone := "Europe/London", DestinationDisplay := "Town Centre",
    Availability := some ⟨[⟨"DaysOfWeek", "Monday", ""⟩], [], [], []⟩,
    Path := [examplePathItem "A" "B" 28800, examplePathItem "B" "C" 28900],
    RealtimeJourney := none }

/-- J2: identical to J1 except CreationTime. -/
def exampleJourneyJ2 : Journey :=
  { exampleJourneyJ1 with CreationDateTime := ⟨2000⟩ }

/-- J3: identical to J1 except one Availability.Condition rule. -/
def exampleJourneyJ3 : Journey :=
  { exampleJourneyJ1 with
    Availability := some ⟨[⟨"DaysOfWeek", "Monday", ""⟩], [], [],
      [⟨"Holiday", "Christmas", ""⟩]⟩ }

/-- C2: `GenerateFunctionalHash` is deterministic; it is insensitive to
CreationDateTime and OtherIdentifiers (two journeys differing only in them
have equal fingerprints); and mutating DepartureTime, any of a path item's
hashed stop/time fields, or (flag set) an availability rule, changes the
fingerprint for some input (exhibited inputs). -/
theorem C2_hash_determinism_and_sensitivity :
    (∀ (j : Journey) (flag : Bool),
      j.GenerateFunctionalHash flag = j.GenerateFunctionalHash flag) ∧
    (∀ (j : Journey) (flag : Bool) (t : GoTime) (ids : List (String × String)),
      Journey.GenerateFunctionalHash
          { j with CreationDateTime := t, OtherIdentifiers := ids } flag
        = j.GenerateFunctionalHash flag) ∧
    (∃ (j : Journey) (t : GoTime),
      Journey.GenerateFunctionalHash { j with DepartureTime := t } false
        ≠ j.GenerateFunctionalHash false) ∧
    (∃ (j : Journey) (i : Nat) (v : String),
      Journey.GenerateFunctionalHash
          { j with Path := listModify (fun p => { p with OriginStopRef := v }) i j.Path } false
        ≠ j.GenerateFunctionalHash false) ∧
    (∃ (j : Journey) (i : Nat) (v : String),
      Journey.GenerateFunctionalHash
          { j with Path := listModify (fun p => { p with DestinationStopRef := v }) i j.Path } false
        ≠ j.GenerateFunctionalHash false) ∧
    (∃ (j : Journey) (i : Nat) (t : GoTime),
      Journey.GenerateFunctionalHash
          { j with Path := listModify (fun p => { p with OriginArrivalTime := t }) i j.Path } false
        ≠ j.GenerateFunctionalHash false) ∧
    (∃ (j : Journey) (i : Nat) (t : GoTime),
      Journey.GenerateFunctionalHash
          { j with Path := listModify (fun p => { p with OriginDepartureTime := t }) i j.Path } false
        ≠ j.GenerateFunctionalHash false) ∧
    (∃ (j : Journey) (i : Nat) (t : GoTime),
      Journey.GenerateFunctionalHash
          { j with Path := listModify (fun p => { p with DestinationArrivalTime := t }) i j.Path } false
        ≠ j.GenerateFunctionalHash false) ∧
    (∃ (j : Journey) (a : Availability),
      j.Availability ≠ some a ∧
      Journey.GenerateFunctionalHash { j with Availability := some a } true
        ≠ j.GenerateFunctionalHash true) := by
  refine ⟨fun j flag => rfl, fun j flag t ids => rfl,
    ⟨exampleJourneyJ1, ⟨0⟩, by decide⟩,
    ⟨exampleJourneyJ1, 0, "Z", by decide⟩,
    ⟨exampleJourneyJ1, 0, "Z", by decide⟩,
    ⟨exampleJourneyJ1, 0, ⟨0⟩, by decide⟩,
    ⟨exampleJourneyJ1, 0, ⟨0⟩, by decide⟩,
    ⟨exampleJourneyJ1, 0, ⟨0⟩, by decide⟩,
    ⟨exampleJourneyJ1, ⟨[⟨"DaysOfWeek", "Tuesday", ""⟩], [], [], []⟩, by decide, by decide⟩⟩

/-- C10: with the flag set, a nil Availability makes `GenerateFunctionalHash`
dereference nil (no result); with the flag unset the Availability field is
never read, so the hash is defined for every journey and unchanged by
any Availability value. -/
theorem C10_hash_nil_availability (j : Journey) :
    (j.Availability = none → j.GenerateFunctionalHash true = none) ∧
    (j.GenerateFunctionalHash false).isSome = true ∧
    (∀ a : Option Availability,
      Journey.GenerateFunctionalHash { j with Availability := a } false
        = j.GenerateFunctionalHash false) := by
  refine ⟨fun h => ?_, ?_, fun a => rfl⟩
  · simp [Journey.GenerateFunctionalHash, h]
  · simp only [Journey.GenerateFunctionalHash]
    rfl

/-- Witness for C10 at a concrete journey with nil Availability. -/
theorem C10_hash_nil_availability_witness :
    Journey.GenerateFunctionalHash { exampleJourneyJ1 with Availability := none } true
      = none :=
  (C10_hash_nil_availability { exampleJourneyJ1 with Availability := none }).1 rfl

/-- The specification's deduplication, written from the spec's words: walk the
input in order keeping exactly one representative per distinct fingerprint —
the first one encountered — and dropping later duplicates entirely, with no
field merging. Fingerprints are compared as values. -/
def dedupSpecAux (flag : Bool) : List Journey → List (Option String) → List Journey
  | [], _ => []
  | j :: rest, seen =>
    if seen.contains (j.GenerateFunctionalHash flag) then
      dedupSpecAux flag rest seen
    else
      j :: dedupSpecAux flag rest (j.GenerateFunctionalHash flag :: seen)

/-- `Deduplicate` as the spec words it. -/
def DeduplicateSpec (journeys : List Journey) (flag : Bool) : List Journey :=
  dedupSpecAux flag journeys []

/-- The dedup recursion refines the spec's recursion whenever every hash is
defined, for related seen-sets. -/
theorem filterIdenticalJourneysGo_eq_spec (flag : Bool) :
    ∀ (js : List Journey) (seen : List String),
      (∀ j ∈ js, (j.GenerateFunctionalHash flag).isSome = true) →
      filterIdenticalJourneysGo flag js seen
        = some (dedupSpecAux flag js (seen.map some)) := by
  intro js
  induction js with
  | nil => intro seen _; rfl
  | cons j rest ih =>
    intro seen H
    have hj : (j.GenerateFunctionalHash flag).isSome = true :=
      H j (List.mem_cons_self j rest)
    have Hrest : ∀ x ∈ rest, (x.GenerateFunctionalHash flag).isSome = true :=
      fun x hx => H x (List.mem_cons_of_mem j hx)
    rcases Option.isSome_iff_exists.mp hj with ⟨h, hh⟩
    by_cases hm : h ∈ seen
    · simp [filterIdenticalJourneysGo, dedupSpecAux, hh, hm, ih seen Hrest]
    · have hrec := ih (h :: seen) Hrest
      simp [filterIdenticalJourneysGo, dedupSpecAux, hh, hm, hrec]

/-- C1: `FilterIdenticalJourneys` keeps exactly one representative per
distinct fingerprint — the first in input order — dropping later duplicates
entirely (it equals the spec's deduplication whenever every fingerprint is
defined, in particular always under flag=false); and for J2 identical to J1
except CreationTime, `Deduplicate([J1,J2], false) = [J1]`. -/
theorem C1_filter_identical_journeys :
    (∀ (journeys : List Journey) (flag : Bool),
      (∀ j ∈ journeys, (j.GenerateFunctionalHash flag).isSome = true) →
      FilterIdenticalJourneys journeys flag = some (DeduplicateSpec journeys flag)) ∧
    FilterIdenticalJourneys [exampleJourneyJ1, exampleJourneyJ2] false
      = some [exampleJourneyJ1] := by
  constructor
  · intro journeys flag H
    exact filterIdenticalJourneysGo_eq_spec flag journeys [] H
  · decide

/-- Witness for C1 at the spec's J1/J2 example, flag=false. -/
theorem C1_filter_identical_journeys_witness :
    FilterIdenticalJourneys [exampleJourneyJ1, exampleJourneyJ2] false
      = some (DeduplicateSpec [exampleJourneyJ1, exampleJourneyJ2] false) :=
  C1_filter_identical_journeys.1 [exampleJourneyJ1, exampleJourneyJ2] false
    (by decide)

/-- J4a: all fields of J1 but an availability Condition rule ("ab", "", ""). -/
def exampleJourneyJ4a : Journey :=
  { exampleJourneyJ1 with Availability := some ⟨[], [], [], [⟨"ab", "", ""⟩]⟩ }

/-- J4b: identical to J4a except that the Condition rule is ("a", "b", ""). -/
def exampleJourneyJ4b : Journey :=
  { exampleJourneyJ1 with Availability := some ⟨[], [], [], [⟨"a", "b", ""⟩]⟩ }

/-- C4 as stated fails: J4a and J4b differ only in one availability rule, yet
their fingerprints coincide under flag=true — rule fields are written to the
hash with no separator, so moving a character between Type and Value leaves
the stream unchanged — and deduplication under flag=true drops J4b instead of
keeping both. -/
theorem C4_counterexample :
    exampleJourneyJ4a.Availability ≠ exampleJourneyJ4b.Availability ∧
    ({ exampleJourneyJ4a with Availability := none } : Journey)
      = { exampleJourneyJ4b with Availability := none } ∧
    Journey.GenerateFunctionalHash exampleJourneyJ4a true
      = Journey.GenerateFunctionalHash exampleJourneyJ4b true ∧
    FilterIdenticalJourneys [exampleJourneyJ4a, exampleJourneyJ4b] true
      = some [exampleJourneyJ4a] := by decide

/-- The availability text folded into the hash stream under the flag: every
rule of Match, then MatchSecondary, then Exclude, then Condition, each
contributing Type, Value, Description. -/
def availabilityHashText (a : Availability) : String :=
  String.join ((a.Match ++ a.MatchSecondary ++ a.Exclude ++ a.Condition).map
    AvailabilityRule.hashChunk)

/-- Strings cancel on both sides of an append. -/
theorem string_append_cancel {s t x y : String} (h : s ++ x ++ t = s ++ y ++ t) :
    x = y := by
  have hd := congrArg String.data h
  simp only [String.data_append] at hd
  have hx := List.append_cancel_left (List.append_cancel_right hd)
  cases x
  cases y
  exact congrArg String.mk hx

/-- C4 (amended): with flag=false no availability field influences the digest;
with flag=true the digest depends on availability exactly through
`availabilityHashText` — the rules of Match, MatchSecondary, Exclude,
Condition in that order, each contributing (Type, Value, Description) with no
separators — so two journeys differing only in availability are duplicates
under flag=false and distinct under flag=true exactly when that concatenated
text differs. On the spec's example (J3 = J1 except one Condition rule),
dedup keeps both under flag=true and only J1 under flag=false. -/
theorem C4_availability_folding :
    (∀ (j : Journey) (a : Option Availability),
      Journey.GenerateFunctionalHash { j with Availability := a } false
        = j.GenerateFunctionalHash false) ∧
    (∀ (j : Journey) (a a' : Availability),
      (Journey.GenerateFunctionalHash { j with Availability := some a } true
          = Journey.GenerateFunctionalHash { j with Availability := some a' } true)
        ↔ availabilityHashText a = availabilityHashText a') ∧
    FilterIdenticalJourneys [exampleJourneyJ1, exampleJourneyJ3] true
      = some [exampleJourneyJ1, exampleJourneyJ3] ∧
    FilterIdenticalJourneys [exampleJourneyJ1, exampleJourneyJ3] false
      = some [exampleJourneyJ1] := by
  refine ⟨fun j a => rfl, fun j a a' => ?_, by decide, by decide⟩
  have hs : ∀ b : Availability,
      Journey.GenerateFunctionalHash { j with Availability := some b } true
        = some ((j.ServiceRef ++ j.DestinationDisplay ++ j.Direction
              ++ j.DepartureTime.string)
            ++ availabilityHashText b
            ++ String.join (j.Path.map JourneyPathItem.hashChunk)) :=
    fun b => rfl
  rw [hs a, hs a', Option.some.injEq]
  constructor
  · exact fun hEq => string_append_cancel hEq
  · intro hEq
    rw [hEq]

/-- `GetRealtimeJourney` unfolded: `FindOne` over the collection with the
key/window filter, attach iff found and active. -/
theorem journey_getRealtimeJourney_unfold (j : Journey)
    (col : RealtimeJourneysCollection) (now cutoff : Int) :
    j.GetRealtimeJourney col now cutoff =
      match col.find? (fun r => r.JourneyPrimaryIdentifier == j.PrimaryIdentifier
          && decide (now - cutoff < r.ModificationDateTime.unixNano)) with
      | some rj => if rj.IsActive then { j with RealtimeJourney := some rj } else j
      | none => j := rfl

/-- C3 as stated fails at the window boundary: an active matching record whose
age equals the cutoff exactly (`now - ModificationTime = cutoff`) satisfies the
claim's `≤` condition but the Mongo filter is strict (`$gt` on the cutoff
date), so no overlay is attached. -/
theorem C3_counterexample :
    (⟨"J1", ⟨900⟩, true⟩ : RealtimeJourney).JourneyPrimaryIdentifier
      = exampleJourneyJ1.PrimaryIdentifier ∧
    (1000 : Int) - (⟨"J1", ⟨900⟩, true⟩ : RealtimeJourney).ModificationDateTime.unixNano
      ≤ 100 ∧
    (⟨"J1", ⟨900⟩, true⟩ : RealtimeJourney).IsActive = true ∧
    exampleJourneyJ1.RealtimeJourney = none ∧
    (exampleJourneyJ1.GetRealtimeJourney [⟨"J1", ⟨900⟩, true⟩] 1000 100).RealtimeJourney
      = none := by decide

/-- C3 (amended): for a journey without an overlay, `GetRealtimeJourney`
attaches a record iff it is the first collection record matching the journey's
primary identifier STRICTLY inside the window (`now - ModificationTime <
cutoff`, i.e. `ModificationTime > now - cutoff`) and its `IsActive()` holds;
in all other cases (older than or exactly at the cutoff, inactive first match,
or no matching record) the overlay stays absent. -/
theorem C3_overlay_window (j : Journey) (col : RealtimeJourneysCollection)
    (now cutoff : Int) (h0 : j.RealtimeJourney = none) (rj : RealtimeJourney) :
    ((j.GetRealtimeJourney col now cutoff).RealtimeJourney = some rj ↔
      col.find? (fun r => r.JourneyPrimaryIdentifier == j.PrimaryIdentifier
          && decide (now - cutoff < r.ModificationDateTime.unixNano)) = some rj
        ∧ rj.IsActive = true) ∧
    (∀ r : RealtimeJourney,
      now - cutoff < r.ModificationDateTime.unixNano ↔
        now - r.ModificationDateTime.unixNano < cutoff) := by
  constructor
  · rw [journey_getRealtimeJourney_unfold]
    rcases hf : col.find? (fun r => r.JourneyPrimaryIdentifier == j.PrimaryIdentifier
        && decide (now - cutoff < r.ModificationDateTime.unixNano)) with _ | r
    · rw [hf]
      show j.RealtimeJourney = some rj ↔ none = some rj ∧ rj.IsActive = true
      rw [h0]
      constructor
      · intro he
        exact Option.noConfusion he
      · rintro ⟨he, _⟩
        exact Option.noConfusion he
    · rw [hf]
      show (if r.IsActive = true then { j with RealtimeJourney := some r } else j).RealtimeJourney
          = some rj ↔ some r = some rj ∧ rj.IsActive = true
      by_cases ha : r.IsActive = true
      · rw [if_pos ha]
        constructor
        · intro he
          have he2 : some r = some rj := he
          injection he2 with hrr
          subst hrr
          exact ⟨rfl, ha⟩
        · rintro ⟨he, _⟩
          injection he with hrr
          subst hrr
          rfl
      · rw [if_neg ha]
        rw [h0]
        constructor
        · intro he
          exact Option.noConfusion he
        · rintro ⟨he, hact⟩
          injection he with hrr
          subst hrr
          exact absurd hact ha
  · intro r
    omega

/-- Witness for C3 at a record strictly inside the window. -/
theorem C3_overlay_window_witness :
    (exampleJourneyJ1.GetRealtimeJourney [⟨"J1", ⟨950⟩, true⟩] 1000 100).RealtimeJourney
      = some ⟨"J1", ⟨950⟩, true⟩ :=
  ((C3_overlay_window exampleJourneyJ1 [⟨"J1", ⟨950⟩, true⟩] 1000 100 rfl
      ⟨"J1", ⟨950⟩, true⟩).1).mpr ⟨by decide, rfl⟩

/-- A successful `find?` splits its list: everything before the hit fails the
predicate. -/
theorem find?_eq_some_split {α : Type} (p : α → Bool) :
    ∀ (l : List α) (a : α), l.find? p = some a →
      p a = true ∧ ∃ l1 l2, l = l1 ++ a :: l2 ∧ ∀ x ∈ l1, p x = false := by
  intro l
  induction l with
  | nil => intro a h; cases h
  | cons b bs ih =>
    intro a h
    by_cases hb : p b = true
    · rw [List.find?_cons_of_pos _ hb] at h
      have hb' : b = a := by
        simpa using h
      subst hb'
      exact ⟨hb, [], bs, rfl, by simp⟩
    · have hbf : p b = false := Bool.eq_false_iff.mpr hb
      rw [List.find?_cons_of_neg _ hb] at h
      rcases ih a h with ⟨hpa, l1, l2, heq, hall⟩
      refine ⟨hpa, b :: l1, l2, by rw [heq]; rfl, ?_⟩
      intro x hx
      rcases List.mem_cons.mp hx with hx | hx
      · subst hx; exact hbf
      · exact hall x hx

/-- C6 as stated fails: two records match the journey's identifier inside the
window and the later one in natural order has the greater ModificationTime,
yet the lookup (FindOne with no sort) attaches the first in natural order, not
the most-recently-modified. -/
theorem C6_counterexample :
    (1000 : Int) - 500
      < (⟨"J1", ⟨900⟩, true⟩ : RealtimeJourney).ModificationDateTime.unixNano ∧
    (1000 : Int) - 500
      < (⟨"J1", ⟨999⟩, true⟩ : RealtimeJourney).ModificationDateTime.unixNano ∧
    (⟨"J1", ⟨900⟩, true⟩ : RealtimeJourney).ModificationDateTime.unixNano
      < (⟨"J1", ⟨999⟩, true⟩ : RealtimeJourney).ModificationDateTime.unixNano ∧
    (exampleJourneyJ1.GetRealtimeJourney
        [⟨"J1", ⟨900⟩, true⟩, ⟨"J1", ⟨999⟩, true⟩] 1000 500).RealtimeJourney
      = some ⟨"J1", ⟨900⟩, true⟩ := by decide

/-- C6 (amended): the overlay lookup applies no sort: whenever a record is
attached it is the FIRST record in the collection's natural order matching the
key/window filter — every earlier record fails the filter — and it is active;
it is not necessarily the one with the greatest ModificationTime. -/
theorem C6_overlay_first_match (j : Journey) (col : RealtimeJourneysCollection)
    (now cutoff : Int) (h0 : j.RealtimeJourney = none) (rj : RealtimeJourney)
    (h : (j.GetRealtimeJourney col now cutoff).RealtimeJourney = some rj) :
    rj.IsActive = true ∧
    rj.JourneyPrimaryIdentifier = j.PrimaryIdentifier ∧
    now - cutoff < rj.ModificationDateTime.unixNano ∧
    ∃ l1 l2, col = l1 ++ rj :: l2 ∧
      ∀ r ∈ l1, ¬(r.JourneyPrimaryIdentifier = j.PrimaryIdentifier ∧
        now - cutoff < r.ModificationDateTime.unixNano) := by
  rw [journey_getRealtimeJourney_unfold] at h
  rcases hf : col.find? (fun r => r.JourneyPrimaryIdentifier == j.PrimaryIdentifier
      && decide (now - cutoff < r.ModificationDateTime.unixNano)) with _ | r
  · rw [hf] at h
    have h2 : j.RealtimeJourney = some rj := h
    rw [h0] at h2
    exact Option.noConfusion h2
  · rw [hf] at h
    have h2 : (if r.IsActive = true then ({ j with RealtimeJourney := some r } : Journey)
        else j).RealtimeJourney = some rj := h
    by_cases ha : r.IsActive = true
    · rw [if_pos ha] at h2
      have h3 : some r = some rj := h2
      injection h3 with hrr
      subst hrr
      rcases find?_eq_some_split _ col r hf with ⟨hp, l1, l2, heq, hall⟩
      rcases Bool.and_eq_true_iff.mp hp with ⟨hid, hlt⟩
      refine ⟨ha, eq_of_beq hid, of_decide_eq_true hlt, l1, l2, heq, ?_⟩
      intro x hx hcontra
      rcases hcontra with ⟨he1, he2⟩
      have hptrue : (x.JourneyPrimaryIdentifier == j.PrimaryIdentifier
          && decide (now - cutoff < x.ModificationDateTime.unixNano)) = true := by
        simp [he1, he2]
      rw [hall x hx] at hptrue
      exact Bool.noConfusion hptrue
    · rw [if_neg ha] at h2
      rw [h0] at h2
      exact Option.noConfusion h2

/-- Witness for C6 at the two-record store of the counterexample setup. -/
theorem C6_overlay_first_match_witness :
    (⟨"J1", ⟨900⟩, true⟩ : RealtimeJourney).IsActive = true ∧
    (⟨"J1", ⟨900⟩, true⟩ : RealtimeJourney).JourneyPrimaryIdentifier
      = exampleJourneyJ1.PrimaryIdentifier ∧
    (1000 : Int) - 500
      < (⟨"J1", ⟨900⟩, true⟩ : RealtimeJourney).ModificationDateTime.unixNano ∧
    ∃ l1 l2, ([⟨"J1", ⟨900⟩, true⟩, ⟨"J1", ⟨999⟩, true⟩] : RealtimeJourneysCollection)
        = l1 ++ (⟨"J1", ⟨900⟩, true⟩ : RealtimeJourney) :: l2 ∧
      ∀ r ∈ l1, ¬(r.JourneyPrimaryIdentifier = exampleJourneyJ1.PrimaryIdentifier ∧
        (1000 : Int) - 500 < r.ModificationDateTime.unixNano) :=
  C6_overlay_first_match exampleJourneyJ1
    [⟨"J1", ⟨900⟩, true⟩, ⟨"J1", ⟨999⟩, true⟩] 1000 500 rfl
    ⟨"J1", ⟨900⟩, true⟩ (by decide)

/-- `GetOperator` unfolded. -/
theorem journey_getOperator_unfold (j : Journey) (operators : OperatorsCollection) :
    j.GetOperator operators =
      if j.Operator.isSome = true then j
      else match operators.find? (fun o => o.PrimaryIdentifier == j.OperatorRef
          || o.OtherIdentifiers.contains j.OperatorRef) with
        | some o => { j with Operator := some o }
        | none => j := rfl

/-- `GetService` unfolded. -/
theorem journey_getService_unfold (j : Journey) (services : ServicesCollection) :
    j.GetService services =
      if j.Service.isSome = true then j
      else match services.find? (fun s => s.PrimaryIdentifier == j.ServiceRef) with
        | some s => { j with Service := some s }
        | none => j := rfl

/-- C5 as stated fails for services: a service whose alternate identifiers
contain the journey's ServiceRef (but whose primary identifier differs) is NOT
found — `GetService` queries by primary identifier only, without the OR form. -/
theorem C5_counterexample :
    exampleJourneyJ1.Service = none ∧
    (⟨"X", ["SVC1"]⟩ : Service).PrimaryIdentifier ≠ exampleJourneyJ1.ServiceRef ∧
    (⟨"X", ["SVC1"]⟩ : Service).OtherIdentifiers.contains exampleJourneyJ1.ServiceRef
      = true ∧
    (exampleJourneyJ1.GetService [⟨"X", ["SVC1"]⟩]).Service = none := by decide

/-- C5 (amended): `GetOperator`/`GetService` are no-ops when the relation
field is populated; otherwise `GetOperator` looks up by primary identifier OR
membership in the operator's alternate-identifier set, while `GetService`
looks up by primary identifier ONLY; on a lookup miss the field remains unset
and the journey is unchanged — no error is raised. -/
theorem C5_resolver (j : Journey) (operators : OperatorsCollection)
    (services : ServicesCollection) :
    (j.Operator.isSome = true → j.GetOperator operators = j) ∧
    (j.Service.isSome = true → j.GetService services = j) ∧
    (j.Operator = none →
      (j.GetOperator operators).Operator
        = operators.find? (fun o => o.PrimaryIdentifier == j.OperatorRef
            || o.OtherIdentifiers.contains j.OperatorRef) ∧
      (operators.find? (fun o => o.PrimaryIdentifier == j.OperatorRef
            || o.OtherIdentifiers.contains j.OperatorRef) = none →
        j.GetOperator operators = j)) ∧
    (j.Service = none →
      (j.GetService services).Service
        = services.find? (fun s => s.PrimaryIdentifier == j.ServiceRef) ∧
      (services.find? (fun s => s.PrimaryIdentifier == j.ServiceRef) = none →
        j.GetService services = j)) := by
  refine ⟨fun h => ?_, fun h => ?_, fun h => ?_, fun h => ?_⟩
  · rw [journey_getOperator_unfold, if_pos h]
  · rw [journey_getService_unfold, if_pos h]
  · have hs : j.Operator.isSome = false := by rw [h]; rfl
    rw [journey_getOperator_unfold, hs]
    rcases hf : operators.find? (fun o => o.PrimaryIdentifier == j.OperatorRef
        || o.OtherIdentifiers.contains j.OperatorRef) with _ | o
    · rw [hf]
      exact ⟨h, fun _ => rfl⟩
    · rw [hf]
      refine ⟨rfl, fun hcon => ?_⟩
      exact Option.noConfusion hcon
  · have hs : j.Service.isSome = false := by rw [h]; rfl
    rw [journey_getService_unfold, hs]
    rcases hf : services.find? (fun s => s.PrimaryIdentifier == j.ServiceRef) with _ | s
    · rw [hf]
      exact ⟨h, fun _ => rfl⟩
    · rw [hf]
      refine ⟨rfl, fun hcon => ?_⟩
      exact Option.noConfusion hcon

/-- Witness for C5: the operator OR-form lookup at a concrete journey whose
operator is referenced by an alternate identifier. -/
theorem C5_resolver_witness :
    (exampleJourneyJ1.GetOperator [⟨"OPX", ["OP1"]⟩]).Operator
      = List.find? (fun o => o.PrimaryIdentifier == exampleJourneyJ1.OperatorRef
          || o.OtherIdentifiers.contains exampleJourneyJ1.OperatorRef)
          [⟨"OPX", ["OP1"]⟩] :=
  ((C5_resolver exampleJourneyJ1 [⟨"OPX", ["OP1"]⟩] []).2.2.1 rfl).1

/-- `ServicesByStopQuery` unfolded over the cache read. -/
theorem servicesByStopQuery_unfold (s : Source) (journeysCollection : List Journey)
    (servicesCollection : ServicesCollection) (q : ServicesByStop) :
    s.ServicesByStopQuery journeysCollection servicesCollection q =
      match cachedresultsGet s.CachedResults
          ("cachedresults/servicesbystopquery/" ++ q.Stop.PrimaryIdentifier) with
      | Except.ok services =>
        ⟨services, none, false, s.CachedResults⟩
      | Except.error _ =>
        ⟨servicesByStopCompute journeysCollection servicesCollection q, none, true,
          cachedresultsSet s.CachedResults
            ("cachedresults/servicesbystopquery/" ++ q.Stop.PrimaryIdentifier)
            (servicesByStopCompute journeysCollection servicesCollection q)
            (24 * timeHour)⟩ := rfl

/-- C7: `ServicesByStopQuery` never surfaces a cache error — the returned
error is always nil. A successfully-decoded cache hit is returned immediately
with no store computation and no cache write; a miss or decode failure falls
through to the authoritative computation, stores the result under the query's
key with a 24-hour TTL, and returns it. -/
theorem C7_services_by_stop_cache (s : Source) (journeysCollection : List Journey)
    (servicesCollection : ServicesCollection) (q : ServicesByStop) :
    (s.ServicesByStopQuery journeysCollection servicesCollection q).err = none ∧
    (∀ v, cachedresultsGet s.CachedResults
          ("cachedresults/servicesbystopquery/" ++ q.Stop.PrimaryIdentifier)
        = Except.ok v →
      s.ServicesByStopQuery journeysCollection servicesCollection q
        = ⟨v, none, false, s.CachedResults⟩) ∧
    (∀ e, cachedresultsGet s.CachedResults
          ("cachedresults/servicesbystopquery/" ++ q.Stop.PrimaryIdentifier)
        = Except.error e →
      s.ServicesByStopQuery journeysCollection servicesCollection q
        = ⟨servicesByStopCompute journeysCollection servicesCollection q, none, true,
          cachedresultsSet s.CachedResults
            ("cachedresults/servicesbystopquery/" ++ q.Stop.PrimaryIdentifier)
            (servicesByStopCompute journeysCollection servicesCollection q)
            (24 * timeHour)⟩) := by
  have hu := servicesByStopQuery_unfold s journeysCollection servicesCollection q
  rcases hg : cachedresultsGet s.CachedResults
      ("cachedresults/servicesbystopquery/" ++ q.Stop.PrimaryIdentifier) with e | v
  · rw [hg] at hu
    refine ⟨by rw [hu], fun v hv => ?_, fun e2 _ => ?_⟩
    · exact Except.noConfusion hv
    · exact hu
  · rw [hg] at hu
    refine ⟨by rw [hu], fun v2 hv => ?_, fun e2 he => ?_⟩
    · injection hv with hvv
      rw [hu, hvv]
    · exact Except.noConfusion he

/-- Witness for C7: an empty cache is a miss, so the store computation runs
and is cached for 24 hours. -/
theorem C7_services_by_stop_cache_witness :
    Source.ServicesByStopQuery ⟨[]⟩ [] [] ⟨⟨"ST1", []⟩⟩
      = ⟨servicesByStopCompute [] [] ⟨⟨"ST1", []⟩⟩, none, true,
        cachedresultsSet [] "cachedresults/servicesbystopquery/ST1"
          (servicesByStopCompute [] [] ⟨⟨"ST1", []⟩⟩) (24 * timeHour)⟩ :=
  (C7_services_by_stop_cache ⟨[]⟩ [] [] ⟨⟨"ST1", []⟩⟩).2.2 () rfl

/-- `listModify` acts only on its own index. -/
theorem listModify_get? {α : Type} (f : α → α) :
    ∀ (l : List α) (i n : Nat),
      (listModify f i l).get? n = if n = i then (l.get? n).map f else l.get? n := by
  intro l
  induction l with
  | nil => intro i n; simp [listModify]
  | cons a as ih =>
    intro i n
    cases i with
    | zero =>
      cases n with
      | zero => simp [listModify]
      | succ m => simp [listModify]
    | succ k =>
      cases n with
      | zero => simp [listModify]
      | succ m => simpa [listModify] using ih k m

/-- Running the tasks in any duplicate-free completion order resolves exactly
the path items whose index occurs in the order, each from its original value
(tasks write disjoint fields, so no task observes another's write on its own
item). -/
theorem runDeepReferenceTasks_get? (stops : List Stop) :
    ∀ (order : List Nat) (j : Journey), order.Nodup →
      ∀ n, (runDeepReferenceTasks stops j order).Path.get? n
        = if n ∈ order then (j.Path.get? n).map (fun p => p.GetReferences stops)
          else j.Path.get? n := by
  intro order
  induction order with
  | nil => intro j _ n; simp [runDeepReferenceTasks]
  | cons o os ih =>
    intro j hnd n
    have hno : o ∉ os := (List.nodup_cons.mp hnd).1
    have hnd2 : os.Nodup := (List.nodup_cons.mp hnd).2
    have hstep : runDeepReferenceTasks stops j (o :: os)
        = runDeepReferenceTasks stops (deepReferenceTask stops j o) os := rfl
    have hpath : (deepReferenceTask stops j o).Path
        = listModify (fun p => p.GetReferences stops) o j.Path := rfl
    rw [hstep, ih (deepReferenceTask stops j o) hnd2 n, hpath, listModify_get?]
    by_cases hn : n ∈ os
    · have hne : n ≠ o := fun h => hno (h ▸ hn)
      rw [if_pos hn, if_pos (List.mem_cons_of_mem o hn), if_neg hne]
    · by_cases heq : n = o
      · rw [if_neg hn, if_pos heq, if_pos (by rw [heq]; exact List.mem_cons_self o os)]
      · rw [if_neg hn, if_neg heq,
          if_neg (fun hmem => (List.mem_cons.mp hmem).elim heq hn)]

/-- The tasks touch only the Path field. -/
theorem runDeepReferenceTasks_fields (stops : List Stop) :
    ∀ (order : List Nat) (j : Journey),
      runDeepReferenceTasks stops j order
        = { j with Path := (runDeepReferenceTasks stops j order).Path } := by
  intro order
  induction order with
  | nil => intro j; rfl
  | cons o os ih =>
    intro j
    have hstep : runDeepReferenceTasks stops j (o :: os)
        = runDeepReferenceTasks stops (deepReferenceTask stops j o) os := rfl
    rw [hstep, ih (deepReferenceTask stops j o)]
    rfl

/-- After `GetDeepReferences`, the path is the item-wise resolution of the
original path. -/
theorem getDeepReferences_path (j : Journey) (stops : List Stop) :
    (j.GetDeepReferences stops).Path
      = j.Path.map (fun p => p.GetReferences stops) := by
  apply List.ext_get?
  intro n
  show (runDeepReferenceTasks stops j (List.range j.Path.length)).Path.get? n = _
  rw [runDeepReferenceTasks_get? stops (List.range j.Path.length) j
    (List.nodup_range _) n, List.get?_map]
  by_cases hn : n < j.Path.length
  · rw [if_pos (List.mem_range.mpr hn)]
  · rw [if_neg (fun h => hn (List.mem_range.mp h)),
      List.get?_eq_none.mpr (Nat.le_of_not_lt hn)]
    rfl

/-- Resolving a path item's origin stop: a hit overwrites, a miss keeps the
previous value. -/
theorem getOriginStop_originStop (p : JourneyPathItem) (stops : List Stop) :
    (p.GetOriginStop stops).OriginStop
      = (stopsFindOne stops p.OriginStopRef).or p.OriginStop := by
  unfold JourneyPathItem.GetOriginStop
  rcases h : stopsFindOne stops p.OriginStopRef with _ | s <;> rfl

/-- `GetDestinationStop` leaves the origin stop alone. -/
theorem getDestinationStop_originStop (x : JourneyPathItem) (stops : List Stop) :
    (x.GetDestinationStop stops).OriginStop = x.OriginStop := by
  unfold JourneyPathItem.GetDestinationStop
  rcases h : stopsFindOne stops x.DestinationStopRef with _ | s <;> rfl

/-- Resolving a path item's destination stop. -/
theorem getDestinationStop_destinationStop (x : JourneyPathItem) (stops : List Stop) :
    (x.GetDestinationStop stops).DestinationStop
      = (stopsFindOne stops x.DestinationStopRef).or x.DestinationStop := by
  unfold JourneyPathItem.GetDestinationStop
  rcases h : stopsFindOne stops x.DestinationStopRef with _ | s <;> rfl

/-- `GetOriginStop` leaves the destination fields alone. -/
theorem getOriginStop_destinationFields (p : JourneyPathItem) (stops : List Stop) :
    (p.GetOriginStop stops).DestinationStopRef = p.DestinationStopRef ∧
    (p.GetOriginStop stops).DestinationStop = p.DestinationStop := by
  unfold JourneyPathItem.GetOriginStop
  rcases h : stopsFindOne stops p.OriginStopRef with _ | s <;> exact ⟨rfl, rfl⟩

/-- C8: `GetDeepReferences` runs one task per path item and joins them all;
the final journey does not depend on the completion order (any duplicate-free
order covering all indices gives the same result as the spawn order), and
afterwards every path item carries its item-wise resolution: each of the 2K
stop fields is the looked-up stop, or keeps its previous value on a genuine
lookup miss. -/
theorem C8_deep_references (j : Journey) (stops : List Stop) (order : List Nat)
    (hperm : order.Perm (List.range j.Path.length)) :
    runDeepReferenceTasks stops j order = j.GetDeepReferences stops ∧
    (j.GetDeepReferences stops).Path
      = j.Path.map (fun p => p.GetReferences stops) ∧
    (∀ p : JourneyPathItem,
      (p.GetReferences stops).OriginStop
          = (stopsFindOne stops p.OriginStopRef).or p.OriginStop ∧
      (p.GetReferences stops).DestinationStop
          = (stopsFindOne stops p.DestinationStopRef).or p.DestinationStop) := by
  have hnodup : order.Nodup := (hperm.nodup_iff).mpr (List.nodup_range _)
  have hpath_eq : (runDeepReferenceTasks stops j order).Path
      = (runDeepReferenceTasks stops j (List.range j.Path.length)).Path := by
    apply List.ext_get?
    intro n
    rw [runDeepReferenceTasks_get? stops order j hnodup n,
      runDeepReferenceTasks_get? stops (List.range j.Path.length) j
        (List.nodup_range _) n]
    by_cases hn : n ∈ order
    · rw [if_pos hn, if_pos (hperm.mem_iff.mp hn)]
    · rw [if_neg hn, if_neg (fun h => hn (hperm.mem_iff.mpr h))]
  refine ⟨?_, getDeepReferences_path j stops, fun p => ?_⟩
  · show runDeepReferenceTasks stops j order
      = runDeepReferenceTasks stops j (List.range j.Path.length)
    rw [runDeepReferenceTasks_fields stops order j,
      runDeepReferenceTasks_fields stops (List.range j.Path.length) j, hpath_eq]
  · constructor
    · show ((p.GetOriginStop stops).GetDestinationStop stops).OriginStop = _
      rw [getDestinationStop_originStop, getOriginStop_originStop]
    · show ((p.GetOriginStop stops).GetDestinationStop stops).DestinationStop = _
      rw [getDestinationStop_destinationStop,
        (getOriginStop_destinationFields p stops).1,
        (getOriginStop_destinationFields p stops).2]

/-- Witness for C8: the reversed completion order on the two-item example
journey agrees with the spawn order. -/
theorem C8_deep_references_witness :
    runDeepReferenceTasks [] exampleJourneyJ1 [1, 0]
      = exampleJourneyJ1.GetDeepReferences [] ∧
    (exampleJourneyJ1.GetDeepReferences []).Path
      = exampleJourneyJ1.Path.map (fun p => p.GetReferences []) ∧
    (∀ p : JourneyPathItem,
      (p.GetReferences []).OriginStop
          = (stopsFindOne [] p.OriginStopRef).or p.OriginStop ∧
      (p.GetReferences []).DestinationStop
          = (stopsFindOne [] p.DestinationStopRef).or p.DestinationStop) :=
  C8_deep_references exampleJourneyJ1 [] [1, 0] (by decide)

/-- Loop invariant of `FlattenStops`: the collected stops are duplicate-free
and each is marked seen. -/
theorem flattenLoop_inv (items : List JourneyPathItem) :
    ∀ st : FlattenState, st.stops.Nodup → (∀ s ∈ st.stops, s ∈ st.alreadySeen) →
      (items.foldl flattenStep st).stops.Nodup ∧
      (∀ s ∈ (items.foldl flattenStep st).stops,
        s ∈ (items.foldl flattenStep st).alreadySeen) := by
  induction items with
  | nil => intro st h1 h2; exact ⟨h1, h2⟩
  | cons it rest ih =>
    intro st h1 h2
    have hstep : (it :: rest).foldl flattenStep st
        = rest.foldl flattenStep (flattenStep st it) := rfl
    rw [hstep]
    by_cases hc : st.alreadySeen.contains it.OriginStopRef = true
    · have hsame : flattenStep st it = st := by
        unfold flattenStep
        rw [if_pos hc]
      rw [hsame]
      exact ih st h1 h2
    · have hnotseen : it.OriginStopRef ∉ st.alreadySeen := by
        intro hm
        exact hc (List.elem_iff.mpr hm)
      have hnotstops : it.OriginStopRef ∉ st.stops :=
        fun hm => hnotseen (h2 _ hm)
      have hexp : flattenStep st it =
          ⟨st.stops ++ [it.OriginStopRef],
            st.arrivalTimes ++ [(it.OriginStopRef, it.OriginArrivalTime)],
            st.departureTimes ++ [(it.OriginStopRef, it.OriginDepartureTime)],
            st.alreadySeen ++ [it.OriginStopRef]⟩ := by
        unfold flattenStep
        rw [if_neg hc]
      rw [hexp]
      apply ih
      · rw [List.nodup_append]
        refine ⟨h1, List.nodup_singleton _, ?_⟩
        intro x hx hx1
        rcases List.mem_singleton.mp hx1 with h
        exact hnotstops (h ▸ hx)
      · intro s hs
        rcases List.mem_append.mp hs with hs | hs
        · exact List.mem_append.mpr (Or.inl (h2 s hs))
        · exact List.mem_append.mpr (Or.inr hs)

/-- `FlattenStops` unfolded at a journey with a last path item. -/
theorem flattenStops_unfold (j : Journey) (lastItem : JourneyPathItem)
    (hlast : j.Path.getLast? = some lastItem) :
    j.FlattenStops =
      (if (j.Path.foldl flattenStep ⟨[], [], [], []⟩).alreadySeen.contains
            lastItem.OriginStopRef
        then some ((j.Path.foldl flattenStep ⟨[], [], [], []⟩).stops,
          (j.Path.foldl flattenStep ⟨[], [], [], []⟩).arrivalTimes,
          (j.Path.foldl flattenStep ⟨[], [], [], []⟩).departureTimes)
        else some ((j.Path.foldl flattenStep ⟨[], [], [], []⟩).stops
            ++ [lastItem.OriginStopRef],
          (j.Path.foldl flattenStep ⟨[], [], [], []⟩).arrivalTimes
            ++ [(lastItem.OriginStopRef, lastItem.OriginArrivalTime)],
          (j.Path.foldl flattenStep ⟨[], [], [], []⟩).departureTimes
            ++ [(lastItem.OriginStopRef, lastItem.OriginDepartureTime)])) := by
  unfold Journey.FlattenStops
  rw [hlast]

/-- C9: `FlattenStops` is only defined on a non-empty path: with at least one
path item it returns a duplicate-free stop list (plus the two time maps), but
on an empty path the indexing `j.Path[len(j.Path)-1]` is out of bounds and the
call fails instead of returning empty results. -/
theorem C9_flatten_stops (j : Journey) :
    (j.Path ≠ [] → ∃ stops arrivalTimes departureTimes,
      j.FlattenStops = some (stops, arrivalTimes, departureTimes) ∧ stops.Nodup) ∧
    (j.Path = [] → j.FlattenStops = none) := by
  constructor
  · intro hne
    have hinv := flattenLoop_inv j.Path ⟨[], [], [], []⟩ (by simp) (by simp)
    rcases hlast : j.Path.getLast? with _ | lastItem
    · exact absurd (List.getLast?_eq_none_iff.mp hlast) hne
    · rw [flattenStops_unfold j lastItem hlast]
      by_cases hc : (j.Path.foldl flattenStep ⟨[], [], [], []⟩).alreadySeen.contains
          lastItem.OriginStopRef = true
      · rw [if_pos hc]
        exact ⟨_, _, _, rfl, hinv.1⟩
      · rw [if_neg hc]
        refine ⟨_, _, _, rfl, ?_⟩
        rw [List.nodup_append]
        refine ⟨hinv.1, List.nodup_singleton _, ?_⟩
        intro x hx hx1
        rcases List.mem_singleton.mp hx1 with h
        exact hc (List.elem_iff.mpr (h ▸ hinv.2 x hx))
  · intro h
    unfold Journey.FlattenStops
    rw [h]
    rfl

/-- The empty-path journey for the C9 witness. -/
def exampleJourneyEmptyPath : Journey :=
  { exampleJourneyJ1 with Path := [] }

/-- Witness for C9: the two-item example journey flattens to a duplicate-free
stop list; the empty-path journey fails. -/
theorem C9_flatten_stops_witness :
    (∃ stops arrivalTimes departureTimes,
      exampleJourneyJ1.FlattenStops = some (stops, arrivalTimes, departureTimes)
        ∧ stops.Nodup) ∧
    exampleJourneyEmptyPath.FlattenStops = none :=
  ⟨(C9_flatten_stops exampleJourneyJ1).1 (by decide),
    (C9_flatten_stops exampleJourneyEmptyPath).2 rfl⟩
